import Mathlib

/-!
Verification development for the Nimbus weather CLI/API.

The definitions below are shallow embeddings of the TypeScript sources:
 - `src/services/openai.service.ts` (intent parsing fallback),
 - `src/services/openweather.service.ts` (forecast transformation, error
   interceptor),
 - `src/utils/index.ts` (`retry`),
 - `src/cli/weather-cli.ts` (day-count computation, fetch dispatch),
 - `src/api/routes.ts` and `src/api/types.ts` (compare endpoint, schemas),
 - the HTTP-facing temperature conversion helpers.

Numbers that are JS `number`s are modelled as `ℚ` (the values involved are
finite decimals); JS `Math.round x` is `⌊x + 1/2⌋`.  Strings are Lean
`String`s and the JS regular expression of the fallback parser is modelled
by an explicit backtracking matcher with the same priority order
(alternatives left to right, greedy `\s+`, lazy capture group).
-/

/-- Enumeration of the two unit systems of the Intent schema. -/
inductive UnitSys where
  | metric
  | imperial
deriving DecidableEq, Repr

/-- Enumeration of `date.kind` in the Intent schema. -/
inductive DateKind where
  | today
  | tomorrow
  | range
deriving DecidableEq, Repr

/-- The `date` object of a WeatherIntent: `kind`, optional `days`,
optional `weekend` (absent fields are `none`). -/
structure DateSpec where
  kind : DateKind
  days : Option ℕ := none
  weekend : Option Bool := none
deriving DecidableEq, Repr

/-- WeatherIntent, from `WeatherIntentSchema` in `src/types/index.ts`. -/
structure WeatherIntent where
  cities : List String
  date : DateSpec
  units : UnitSys
  extras : Option (List String) := none
  useIpLocation : Bool := false
  compare : Bool := false
deriving DecidableEq, Repr

/-- JS `s.toLowerCase()` (on the ASCII range relevant here), defined by
structural recursion on the character list. -/
def jsToLower (s : String) : String :=
  String.mk (s.toList.map Char.toLower)

/-- JS `s.includes(sub)`: `sub` occurs as a contiguous substring of `s`. -/
def jsIncludes (s sub : String) : Bool :=
  (List.range (s.toList.length + 1)).any (fun i => sub.toList.isPrefixOf (s.toList.drop i))

/-- JS regex word character class `\w` = `[A-Za-z0-9_]`. -/
def wordChar (c : Char) : Bool :=
  c.isAlpha || c.isDigit || c = '_'

/-- JS regex whitespace class `\s` (the ASCII part, which is all the
fallback parser can meet in practice). -/
def spaceChar (c : Char) : Bool :=
  c = ' ' || c = '\t' || c = '\n' || c = '\r' || c = '\x0b' || c = '\x0c'

/-- Characters matched by the capture group `[A-Za-z\s]` of the city
pattern in `parseIntentFallback`. -/
def cityChar (c : Char) : Bool :=
  c.isAlpha || spaceChar c

/-- Length of the longest prefix of `l` whose characters satisfy `p`. -/
def leadCount (p : Char → Bool) : List Char → ℕ
  | [] => 0
  | c :: r => if p c then leadCount p r + 1 else 0

/-- The temporal keywords of the terminator group
`(?:today|tomorrow|this|next|weekend|weather|forecast)`, in the source's
alternation order. -/
def cityStopKeywords : List (List Char) :=
  ["today", "tomorrow", "this", "next", "weekend", "weather", "forecast"].map String.toList

/-- The prepositions of the group `(?:in|for|at)`, in alternation order
(their first letters are distinct, so at most one can match at a
position). -/
def cityPreps : List (List Char) :=
  ["in", "for", "at"].map String.toList

/-- Match one keyword of the terminator alternation as a literal prefix of
`r`; returns the number of characters consumed. -/
def matchKeyword (r : List Char) : Option ℕ :=
  cityStopKeywords.findSome? (fun k => if k.isPrefixOf r then some k.length else none)

/-- Match the terminator `(?:\s+(?:today|…)|$)` at `r`: first the greedy
`\s+` followed by a keyword (longer whitespace runs preferred), then `$`
(end of input).  Returns the number of characters consumed. -/
def matchTerm (r : List Char) : Option ℕ :=
  let t := leadCount spaceChar r
  match (List.range t).findSome? (fun i =>
      let s := t - i
      (matchKeyword (r.drop s)).map (fun kl => s + kl)) with
  | some n => some n
  | none => if r.isEmpty then some 0 else none

/-- Match the lazy capture group `([A-Za-z\s]+?)` followed by the
terminator, preferring shorter captures.  Returns (capture length,
terminator length). -/
def matchCity (r : List Char) : Option (ℕ × ℕ) :=
  let m := leadCount cityChar r
  (List.range m).findSome? (fun i =>
    let len := i + 1
    (matchTerm (r.drop len)).map (fun t => (len, t)))

/-- Match `\s+([A-Za-z\s]+?)(?:\s+(?:today|…)|$)` at `r` (the part of the
city pattern after the preposition), with the greedy `\s+` preferring
longer runs.  Returns (captured characters, characters consumed). -/
def matchAfterPrep (r : List Char) : Option (List Char × ℕ) :=
  let sm := leadCount spaceChar r
  (List.range sm).findSome? (fun i =>
    let s := sm - i
    (matchCity (r.drop s)).map (fun lt => ((r.drop s).take lt.1, s + lt.1 + lt.2)))

/-- Match the whole city pattern (minus the leading `\b`, which the
scanner checks) at the start of `r`. -/
def matchCityPattern (r : List Char) : Option (List Char × ℕ) :=
  cityPreps.findSome? (fun p =>
    if p.isPrefixOf r then
      (matchAfterPrep (r.drop p.length)).map (fun cn => (cn.1, p.length + cn.2))
    else none)

/-- Whether the last character of `l` is a word character (used to carry
the `\b` state across a successful match). -/
def lastCharIsWord (l : List Char) : Bool :=
  match l.getLast? with
  | some c => wordChar c
  | none => false

/-- The `while ((match = cityPattern.exec(query)) !== null)` loop: scan
left to right; a match may start only at a `\b` boundary (the previous
character is not a word character — the pattern always begins with a word
character); after a match, scanning resumes at `lastIndex`.  `fuel` is an
upper bound on the number of scan steps (each step consumes at least one
character). -/
def scanCityMatches (fuel : ℕ) (prevIsWord : Bool) (r : List Char) : List (List Char) :=
  match fuel, r with
  | 0, _ => []
  | _ + 1, [] => []
  | fuel + 1, c :: rest =>
    if prevIsWord then
      scanCityMatches fuel (wordChar c) rest
    else
      match matchCityPattern (c :: rest) with
      | some (city, n) =>
        city :: scanCityMatches fuel (lastCharIsWord ((c :: rest).take n)) ((c :: rest).drop n)
      | none => scanCityMatches fuel (wordChar c) rest

/-- JS `String.prototype.trim` on a character list. -/
def trimChars (l : List Char) : List Char :=
  ((l.dropWhile spaceChar).reverse.dropWhile spaceChar).reverse

/-- The collection step of the exec loop: `city = match[1].trim(); if
(city && city.length > 1 && !cities.includes(city)) cities.push(city)`. -/
def collectCities (raw : List (List Char)) : List String :=
  raw.foldl (fun acc cl =>
    let city := String.mk (trimChars cl)
    if 1 < city.length ∧ ¬ city ∈ acc then acc ++ [city] else acc) []

/-- City extraction of `parseIntentFallback`
(`src/services/openai.service.ts` lines 161-171). -/
def extractCities (query : String) : List String :=
  collectCities (scanCityMatches query.toList.length false query.toList)

/-- Condition of the early return of `parseIntentFallback` (lines
173-183): no city was extracted and the query mentions "here" or "my
location". -/
def fallbackEarlyReturn (query : String) : Prop :=
  extractCities query = [] ∧
    (jsIncludes (jsToLower query) "here" = true ∨ jsIncludes (jsToLower query) "my location" = true)

instance (query : String) : Decidable (fallbackEarlyReturn query) := by
  unfold fallbackEarlyReturn
  infer_instance

/-- Date-kind detection of `parseIntentFallback` (lines 185-198). -/
def fallbackDateKind (lowerQuery : String) : DateKind :=
  if jsIncludes lowerQuery "tomorrow" then DateKind.tomorrow
  else if jsIncludes lowerQuery "weekend" then DateKind.range
  else if jsIncludes lowerQuery "forecast" || jsIncludes lowerQuery "next" then DateKind.range
  else DateKind.today

/-- The `days` variable set alongside the date kind (lines 185-198). -/
def fallbackDays (lowerQuery : String) : Option ℕ :=
  if jsIncludes lowerQuery "tomorrow" then none
  else if jsIncludes lowerQuery "weekend" then some 2
  else if jsIncludes lowerQuery "forecast" || jsIncludes lowerQuery "next" then some 5
  else none

/-- The `weekend` flag set alongside the date kind (lines 185-198). -/
def fallbackWeekend (lowerQuery : String) : Bool :=
  if jsIncludes lowerQuery "tomorrow" then false
  else if jsIncludes lowerQuery "weekend" then true
  else false

/-- Unit detection of `parseIntentFallback` (lines 200-203). -/
def fallbackUnits (lowerQuery : String) : UnitSys :=
  if jsIncludes lowerQuery "celsius" || jsIncludes lowerQuery "c" then UnitSys.metric
  else UnitSys.imperial

/-- Extras tagging of `parseIntentFallback` (lines 205-211). -/
def fallbackExtras (lowerQuery : String) : List String :=
  (if jsIncludes lowerQuery "umbrella" then ["umbrella"] else []) ++
  (if jsIncludes lowerQuery "rain" || jsIncludes lowerQuery "precipitation" then ["precipitation"] else []) ++
  (if jsIncludes lowerQuery "wind" then ["wind"] else []) ++
  (if jsIncludes lowerQuery "uv" || jsIncludes lowerQuery "sun" then ["uv"] else [])

/-- Compare-flag detection of `parseIntentFallback` (lines 213-216). -/
def fallbackCompare (lowerQuery : String) : Bool :=
  jsIncludes lowerQuery "compare" || jsIncludes lowerQuery "vs" || jsIncludes lowerQuery "versus"

/-- The regex fallback intent parser `OpenAIService.parseIntentFallback`
(`src/services/openai.service.ts` lines 158-226). -/
def parseIntentFallback (query : String) : WeatherIntent :=
  let lowerQuery := jsToLower query
  let cities := extractCities query
  if fallbackEarlyReturn query then
    { cities := ["Unknown"]
      date := { kind := DateKind.today, days := none, weekend := none }
      units := UnitSys.imperial
      extras := none
      useIpLocation := true
      compare := false }
  else
    { cities := if 0 < cities.length then cities else ["Unknown"]
      date := { kind := fallbackDateKind lowerQuery
                days := fallbackDays lowerQuery
                weekend := some (fallbackWeekend lowerQuery) }
      units := fallbackUnits lowerQuery
      extras := if (fallbackExtras lowerQuery).isEmpty then none else some (fallbackExtras lowerQuery)
      useIpLocation := cities.isEmpty
      compare := fallbackCompare lowerQuery }

/-- One weather condition object of an OpenWeather response
(`weather[i]`): `main`, `description`, `icon`. -/
structure WCond where
  main : String
  description : String
  icon : String
deriving DecidableEq, Repr

/-- One 3-hourly forecast sample of the OpenWeather `/forecast` response
(`data.list[i]`), restricted to the fields `transformForecast` reads:
`dt` (Unix seconds), `main.temp`, `main.humidity`, `wind.speed`, `pop`,
and the `weather` array. -/
structure ForecastEntry where
  dt : ℕ
  temp : ℚ
  humidity : ℚ
  windSpeed : ℚ
  pop : ℚ
  weather : List WCond
deriving DecidableEq, Repr

/-- One aggregated forecast day of the internal `WeatherData` format.
`date` is the UTC calendar-day number (days since the Unix epoch), the
numeric counterpart of the `YYYY-MM-DD` key string. -/
structure DailyForecast where
  date : ℕ
  temperatureMin : ℚ
  temperatureMax : ℚ
  description : String
  icon : String
  main : String
  humidity : ℤ
  windSpeed : ℚ
  precipitationProbability : ℤ
deriving DecidableEq, Repr

/-- JS `Math.round`: round half toward positive infinity. -/
def jsRound (q : ℚ) : ℤ :=
  ⌊q + 1/2⌋

/-- JS `s || d` for strings: `d` when `s` is falsy (empty), else `s`. -/
def jsOrS (s d : String) : String :=
  if s = "" then d else s

/-- Arithmetic mean used by `transformForecast`
(`xs.reduce((a, b) => a + b, 0) / xs.length`). -/
def meanQ (xs : List ℚ) : ℚ :=
  xs.sum / (xs.length : ℚ)

/-- JS `Math.min(...xs)` for a non-empty spread (`transformForecast` only
applies it to non-empty buckets; the `[]` case is arbitrary). -/
def listMinQ : List ℚ → ℚ
  | [] => 0
  | x :: r => r.foldl min x

/-- JS `Math.max(...xs)` for a non-empty spread. -/
def listMaxQ : List ℚ → ℚ
  | [] => 0
  | x :: r => r.foldl max x

/-- JS `s.split("-")` on a character list. -/
def splitDash : List Char → List (List Char)
  | [] => [[]]
  | c :: rest =>
    if c = '-' then [] :: splitDash rest
    else
      match splitDash rest with
      | [] => [[c]]
      | p :: ps => (c :: p) :: ps

/-- JS `s.split("-")` returning strings. -/
def splitDashS (s : String) : List String :=
  (splitDash s.toList).map (fun l => String.mk l)

/-- One step of the condition tally
(`weatherCounts.set(key, (weatherCounts.get(key) || 0) + 1)`): increment
the count of `key`, inserting it at the end on first encounter — the
association list mirrors the JS `Map`'s insertion-order iteration. -/
def bumpTally : List (String × ℕ) → String → List (String × ℕ)
  | [], key => [(key, 1)]
  | (k, n) :: rest, key =>
    if k = key then (k, n + 1) :: rest else (k, n) :: bumpTally rest key

/-- The condition tally of `transformForecast` (lines 217-224): for each
sample, take `weather[0]` if present and count the hyphen-joined key
`main + "-" + description`. -/
def tallyWeather (dayEntries : List ForecastEntry) : List (String × ℕ) :=
  dayEntries.foldl (fun acc e =>
    match e.weather.head? with
    | some w => bumpTally acc (w.main ++ "-" ++ w.description)
    | none => acc) []

/-- One step of `firstMax`: keep the current best unless the next count
is strictly larger. -/
def firstMaxStep (acc : Option (String × ℕ)) (x : String × ℕ) : Option (String × ℕ) :=
  match acc with
  | none => some x
  | some m => if m.2 < x.2 then some x else some m

/-- Specification-side selector: the entry with the highest count, ties
broken in favor of the earliest entry of the list (= first-encountered in
the JS `Map`'s iteration order). -/
def firstMax (l : List (String × ℕ)) : Option (String × ℕ) :=
  l.foldl firstMaxStep none

/-- Insert `x` into a list sorted by strictly descending-or-equal count,
after every element whose count is at least `x`'s.  Used to model the JS
stable `sort(([, a], [, b]) => b - a)`. -/
def stableInsertDesc (x : String × ℕ) : List (String × ℕ) → List (String × ℕ)
  | [] => [x]
  | y :: ys => if y.2 < x.2 then x :: y :: ys else y :: stableInsertDesc x ys

/-- The JS stable sort `entries.sort(([, a], [, b]) => b - a)` (descending
by count, ties keeping the original order), modelled as a stable insertion
sort, which produces the same list. -/
def sortByCountDesc (l : List (String × ℕ)) : List (String × ℕ) :=
  l.foldl (fun acc x => stableInsertDesc x acc) []

/-- Per-bucket aggregation step of
`OpenWeatherService.transformForecast`
(`src/services/openweather.service.ts` lines 206-286).  `k` is the
bucket's day key, `dayEntries` the bucket's samples. -/
def aggregateBucket (k : ℕ) (dayEntries : List ForecastEntry) : DailyForecast :=
  let temperatures := dayEntries.map (fun e => e.temp)
  let humidities := dayEntries.map (fun e => e.humidity)
  let windSpeeds := dayEntries.map (fun e => e.windSpeed)
  let precipitationProbs := dayEntries.map (fun e => e.pop)
  let weatherEntries := tallyWeather dayEntries
  if weatherEntries = [] then
    { date := k
      temperatureMin := listMinQ temperatures
      temperatureMax := listMaxQ temperatures
      description := "Unknown"
      icon := "01d"
      main := "Clear"
      humidity := jsRound (meanQ humidities)
      windSpeed := ((jsRound (meanQ windSpeeds * 10) : ℤ) : ℚ) / 10
      precipitationProbability := jsRound (listMaxQ precipitationProbs * 100) }
  else
    let sortedEntries := sortByCountDesc weatherEntries
    let mostCommonWeather := jsOrS ((sortedEntries.head?.map Prod.fst).getD "") "Clear-Unknown"
    let parts := splitDashS mostCommonWeather
    let mainPart := parts.getD 0 ""
    let descriptionPart := parts.getD 1 ""
    let weatherEntry := dayEntries.find? (fun e =>
      match e.weather.head? with
      | some w => w.main == mainPart && w.description == descriptionPart
      | none => false)
    { date := k
      temperatureMin := listMinQ temperatures
      temperatureMax := listMaxQ temperatures
      description := jsOrS descriptionPart "Unknown"
      icon := jsOrS ((weatherEntry.bind (fun e => e.weather.head?.map (fun w => w.icon))).getD "") "01d"
      main := jsOrS mainPart "Clear"
      humidity := jsRound (meanQ humidities)
      windSpeed := ((jsRound (meanQ windSpeeds * 10) : ℤ) : ℚ) / 10
      precipitationProbability := jsRound (listMaxQ precipitationProbs * 100) }

/-- UTC calendar day of a Unix timestamp in seconds: the numeric
counterpart of `new Date(dt * 1000).toISOString().split("T")[0]` (the
`YYYY-MM-DD` strings compare lexicographically exactly as these numbers
compare, for all representable dates with four-digit years). -/
def dayKey (dt : ℕ) : ℕ :=
  dt / 86400

/-- Insert one sample into the day-grouping map (an association list in
insertion order, mirroring the JS `Map`): append to an existing bucket,
or add a new bucket at the end. -/
def insertEntry : List (ℕ × List ForecastEntry) → ℕ → ForecastEntry → List (ℕ × List ForecastEntry)
  | [], k, e => [(k, [e])]
  | (k', es) :: rest, k, e =>
    if k' = k then (k', es ++ [e]) :: rest
    else (k', es) :: insertEntry rest k e

/-- The grouping loop of `transformForecast` (lines 187-201): group
samples by UTC calendar day. -/
def groupByDay (entries : List ForecastEntry) : List (ℕ × List ForecastEntry) :=
  entries.foldl (fun m e => insertEntry m (dayKey e.dt) e) []

/-- Bucket lookup (`groupedByDay.get(dayKey)!`); total because every key
passed to it comes from the map itself. -/
def lookupDay : List (ℕ × List ForecastEntry) → ℕ → List ForecastEntry
  | [], _ => []
  | (k', es) :: rest, k => if k' = k then es else lookupDay rest k

/-- The `cnt` request parameter of `getForecast`
(`src/services/openweather.service.ts` line 109):
`Math.min(days * 8, 40)`. -/
def requestCnt (days : ℕ) : ℕ :=
  min (days * 8) 40

/-- The whole forecast transformation (`transformForecast`, lines
180-293): group by day, sort the day keys ascending, keep the first
`days` keys, and aggregate each kept bucket. -/
def transformForecast (entries : List ForecastEntry) (days : ℕ) : List DailyForecast :=
  let grouped := groupByDay entries
  let sortedDays := ((grouped.map Prod.fst).mergeSort (fun a b => Nat.ble a b)).take days
  sortedDays.map (fun dk => aggregateBucket dk (lookupDay grouped dk))

/-- The error-mapping response interceptor of `OpenWeatherService`
(`src/services/openweather.service.ts` lines 39-64): HTTP status (if any),
whether the request timed out (`ECONNABORTED`), and the raw error message
are mapped to the thrown message. -/
def owInterceptError (status : Option ℕ) (timedOut : Bool) (message : String) : String :=
  if status = some 401 then
    "Invalid OpenWeather API key. Please check your OPENWEATHER_API_KEY environment variable."
  else if status = some 404 then
    "City not found. Please check the city name and try again."
  else if status = some 429 then
    "OpenWeather API rate limit exceeded. Please try again later."
  else if timedOut then
    "Request timeout. Please check your internet connection and try again."
  else
    "OpenWeather API error: " ++ message

/-- The loop body of `retry` (`src/utils/index.ts` lines 139-162).  `fn i`
is the outcome of the `i`-th invocation of the retried thunk (the code
calls the same thunk repeatedly; indexing the attempts keeps the model
deterministic), `remaining` the number of loop iterations left after the
current one.  Returns the overall outcome and the number of invocations
performed. -/
def retryLoop {E A : Type} (fn : ℕ → Except E A) (i : ℕ) : ℕ → Except E A × ℕ
  | 0 => (fn i, 1)
  | remaining + 1 =>
    match fn i with
    | Except.ok a => (Except.ok a, 1)
    | Except.error _ =>
      let p := retryLoop fn (i + 1) remaining
      (p.1, p.2 + 1)

/-- The `retry` helper (`src/utils/index.ts`): up to `maxRetries + 1`
invocations (`for (let i = 0; i <= maxRetries; i++)`); any caught error
leads to another attempt until the budget is exhausted, and the last
error is rethrown. -/
def retryE {E A : Type} (fn : ℕ → Except E A) (maxRetries : ℕ) : Except E A × ℕ :=
  retryLoop fn 0 maxRetries

/-- Number of invocations `retry` performs. -/
def retryCallCount {E A : Type} (fn : ℕ → Except E A) (maxRetries : ℕ) : ℕ :=
  (retryE fn maxRetries).2

/-- The wait before attempt `i + 1` (`src/utils/index.ts` line 156):
`delay * Math.pow(2, i)`. -/
def backoffDelay (delay i : ℕ) : ℕ :=
  delay * 2 ^ i

/-- The `retries` setting of the configuration
(`src/config/index.ts` line: `retries: 3`). -/
def configRetries : ℕ := 3

/-- The default base delay of `retry` (`delay: number = 1000`). -/
def configRetryDelay : ℕ := 1000

/-- Shape of `OpenAIService.parseIntent`
(`src/services/openai.service.ts` lines 26-87): the model call (including
JSON extraction and `JSON.parse`, which happen inside the retried thunk)
runs under `retry`; the Zod schema validation runs once on the retry
result, outside `retry`.  Returns the outcome and the number of model
invocations. -/
def parseIntentRun {J I : Type} (modelCall : ℕ → Except String J)
    (validate : J → Except String I) (maxRetries : ℕ) : Except String I × ℕ :=
  let r := retryE modelCall maxRetries
  (match r.1 with
   | Except.ok j =>
     match validate j with
     | Except.ok intent => Except.ok intent
     | Except.error m => Except.error ("Invalid intent structure: " ++ m)
   | Except.error e => Except.error ("Failed to parse intent: " ++ e), r.2)

/-- JS `date.days || 3`: `undefined` and `0` are falsy. -/
def jsOrNum (d : Option ℕ) (dflt : ℕ) : ℕ :=
  match d with
  | some n => if n = 0 then dflt else n
  | none => dflt

/-- `WeatherCLI.calculateDays` (`src/cli/weather-cli.ts` lines 138-152):
today/tomorrow give 1; for a range, `weekend` (checked first) gives 2,
otherwise `days || 3`. -/
def calculateDays (date : DateSpec) : ℕ :=
  match date.kind with
  | DateKind.today => 1
  | DateKind.tomorrow => 1
  | DateKind.range =>
    if date.weekend.getD false then 2
    else jsOrNum date.days 3

/-- The three provider calls `WeatherCLI.fetchWeatherForCity` can
dispatch to (lines 111-136): current weather, a 2-day forecast for
"tomorrow", or an n-day forecast. -/
inductive FetchAction where
  | current
  | tomorrowForecast (requestedDays : ℕ)
  | rangeForecast (days : ℕ)
deriving DecidableEq, Repr

/-- Dispatch logic of `WeatherCLI.fetchWeatherForCity` (lines 116-135). -/
def fetchActionFor (date : DateSpec) : FetchAction :=
  let days := calculateDays date
  if days = 1 ∧ date.kind = DateKind.today then FetchAction.current
  else if days = 1 ∧ date.kind = DateKind.tomorrow then FetchAction.tomorrowForecast 2
  else FetchAction.rangeForecast days

/-- The slice of `WeatherData` the "tomorrow" selection manipulates. -/
structure WeatherDataLite where
  city : String
  country : String
  forecast : List DailyForecast
deriving DecidableEq, Repr

/-- The "tomorrow" selection of `fetchWeatherForCity` (lines 121-132):
when the fetched 2-day forecast has more than one daily aggregate, keep
only the second one (`forecast[1]`); otherwise return the data
unchanged. -/
def tomorrowSelect (fd : WeatherDataLite) : WeatherDataLite :=
  if 1 < fd.forecast.length then
    match fd.forecast[1]? with
    | some t => { city := fd.city, country := fd.country, forecast := [t] }
    | none => fd
  else fd

/-- What `WeatherCLI.fetchWeatherData` (lines 90-109) decides to do:
fan out over all cities, fetch a single city, or fail for lack of a
city. -/
inductive FetchPlan where
  | compareAll (cities : List String)
  | single (city : String)
  | noCity
deriving DecidableEq, Repr

/-- The dispatch of `WeatherCLI.fetchWeatherData`: the comparison fan-out
happens only when `compare` is set and at least two cities are present;
otherwise the first city is fetched, and a missing or empty first city
(`if (!city)`) is an error. -/
def fetchWeatherPlan (intent : WeatherIntent) : FetchPlan :=
  if intent.compare = true ∧ 2 ≤ intent.cities.length then
    FetchPlan.compareAll intent.cities
  else
    match intent.cities.head? with
    | some c => if c = "" then FetchPlan.noCity else FetchPlan.single c
    | none => FetchPlan.noCity

/-- `CompareQuerySchema` of `src/api/types.ts` (lines 18-22):
`z.array(z.string().min(1)).min(2)`. -/
def compareSchemaOk (cities : List String) : Bool :=
  decide (2 ≤ cities.length) && cities.all (fun c => decide (1 ≤ c.length))

/-- The result assembly of `POST /api/compare`
(`src/api/routes.ts` lines 161-220): each city's fetch result is either
data or `none` (the per-promise `.catch` returns `null`); failed cities
are filtered out, and the request errors only when no city succeeded. -/
def compareCities {W : Type} (results : List (Option W)) : Except String (List W) :=
  if (results.filterMap id).length = 0 then
    Except.error "Failed to fetch weather data for any city"
  else
    Except.ok (results.filterMap id)

/-- JS `Promise.all` over already-settled outcomes: succeeds with all
values when every constituent succeeded, and rejects with a constituent's
error as soon as one failed (the model picks the leftmost error; the
code's rejection is the temporally first, which for a shallow
deterministic embedding is indistinguishable — some constituent error
surfaces and no value list does).  This is the comparison fan-out of
`WeatherCLI.fetchWeatherData` (`src/cli/weather-cli.ts` lines 96-100),
which maps `fetchWeatherForCity` over the cities with no per-city
`catch`. -/
def promiseAll {E A : Type} : List (Except E A) → Except E (List A)
  | [] => Except.ok []
  | Except.ok a :: rest => (promiseAll rest).map (fun l => a :: l)
  | Except.error e :: _ => Except.error e

/-- Celsius from Fahrenheit as computed by the HTTP-facing `getWeatherData`
(`server.ts`, `((x - 32) * 5) / 9`). -/
def tempCOfF (f : ℚ) : ℚ :=
  (f - 32) * 5 / 9

/-- Fahrenheit from Celsius as computed by the HTTP-facing `getWeatherData`
(`server.ts`, `(x * 9) / 5 + 32`). -/
def tempFOfC (c : ℚ) : ℚ :=
  c * 9 / 5 + 32

/-- Sample bucket entry: humidity 50 (first three-hour slot of a day). -/
def c1entryA : ForecastEntry :=
  { dt := 0, temp := 10, humidity := 50, windSpeed := 0, pop := 0,
    weather := [{ main := "Clear", description := "clear sky", icon := "01d" }] }

/-- Sample bucket entry: humidity 51 (second slot of the same day). -/
def c1entryB : ForecastEntry :=
  { dt := 10800, temp := 12, humidity := 51, windSpeed := 0, pop := 0,
    weather := [{ main := "Clear", description := "clear sky", icon := "01d" }] }

/-- First sample of the spec's condition-selection example
(`{temp:10, main:"Rain"}`). -/
def c2entryRainA : ForecastEntry :=
  { dt := 0, temp := 10, humidity := 50, windSpeed := 0, pop := 0,
    weather := [{ main := "Rain", description := "light rain", icon := "10d" }] }

/-- Second sample of the example (`{temp:20, main:"Rain"}`). -/
def c2entryRainB : ForecastEntry :=
  { dt := 10800, temp := 20, humidity := 50, windSpeed := 0, pop := 0,
    weather := [{ main := "Rain", description := "light rain", icon := "10d" }] }

/-- Third sample of the example (`{temp:15, main:"Clear"}`). -/
def c2entryClear : ForecastEntry :=
  { dt := 21600, temp := 15, humidity := 50, windSpeed := 0, pop := 0,
    weather := [{ main := "Clear", description := "clear sky", icon := "01d" }] }

/-- A sample whose condition description contains a hyphen. -/
def c2entryHyphen : ForecastEntry :=
  { dt := 0, temp := 10, humidity := 50, windSpeed := 0, pop := 0,
    weather := [{ main := "Rain", description := "very-heavy", icon := "10d" }] }

/-- A placeholder daily aggregate (used to build sample forecasts). -/
def sampleDay (n : ℕ) : DailyForecast :=
  { date := n, temperatureMin := 0, temperatureMax := 0, description := "",
    icon := "", main := "", humidity := 0, windSpeed := 0,
    precipitationProbability := 0 }

/-- A sample 2-day forecast response for the "tomorrow" path. -/
def sampleTwoDayData : WeatherDataLite :=
  { city := "Paris", country := "FR", forecast := [sampleDay 0, sampleDay 1] }

/-- A sample comparison intent with two cities. -/
def sampleCompareIntent : WeatherIntent :=
  { cities := ["London", "Paris"], date := { kind := DateKind.today },
    units := UnitSys.metric, extras := none, useIpLocation := false,
    compare := true }

theorem foldl_min_mem : ∀ (l : List ℚ) (a : ℚ), l.foldl min a ∈ a :: l
  | [], _ => by simp
  | x :: xs, a => by
    have h := foldl_min_mem xs (min a x)
    simp only [List.foldl_cons]
    rcases List.mem_cons.mp h with h1 | h2
    · rcases min_choice a x with hm | hm
      · rw [h1, hm]; exact List.mem_cons_self _ _
      · rw [h1, hm]; exact List.mem_cons_of_mem _ (List.mem_cons_self _ _)
    · exact List.mem_cons_of_mem _ (List.mem_cons_of_mem _ h2)

theorem foldl_min_le_init : ∀ (l : List ℚ) (a : ℚ), l.foldl min a ≤ a
  | [], a => le_refl a
  | x :: xs, a => le_trans (foldl_min_le_init xs (min a x)) (min_le_left a x)

theorem foldl_min_le_mem : ∀ (l : List ℚ) (a t : ℚ), t ∈ l → l.foldl min a ≤ t
  | x :: xs, a, t, ht => by
    rcases List.mem_cons.mp ht with h1 | h2
    · subst h1
      exact le_trans (foldl_min_le_init xs (min a t)) (min_le_right a t)
    · exact foldl_min_le_mem xs (min a x) t h2

theorem foldl_max_mem : ∀ (l : List ℚ) (a : ℚ), l.foldl max a ∈ a :: l
  | [], _ => by simp
  | x :: xs, a => by
    have h := foldl_max_mem xs (max a x)
    simp only [List.foldl_cons]
    rcases List.mem_cons.mp h with h1 | h2
    · rcases max_choice a x with hm | hm
      · rw [h1, hm]; exact List.mem_cons_self _ _
      · rw [h1, hm]; exact List.mem_cons_of_mem _ (List.mem_cons_self _ _)
    · exact List.mem_cons_of_mem _ (List.mem_cons_of_mem _ h2)

theorem foldl_max_ge_init : ∀ (l : List ℚ) (a : ℚ), a ≤ l.foldl max a
  | [], a => le_refl a
  | x :: xs, a => le_trans (le_max_left a x) (foldl_max_ge_init xs (max a x))

theorem foldl_max_ge_mem : ∀ (l : List ℚ) (a t : ℚ), t ∈ l → t ≤ l.foldl max a
  | x :: xs, a, t, ht => by
    rcases List.mem_cons.mp ht with h1 | h2
    · subst h1
      exact le_trans (le_max_right a t) (foldl_max_ge_init xs (max a t))
    · exact foldl_max_ge_mem xs (max a x) t h2

theorem listMinQ_mem (l : List ℚ) (h : l ≠ []) : listMinQ l ∈ l := by
  cases l with
  | nil => exact absurd rfl h
  | cons x r => exact foldl_min_mem r x

theorem listMinQ_le (l : List ℚ) : ∀ t ∈ l, listMinQ l ≤ t := by
  cases l with
  | nil => intro t ht; cases ht
  | cons x r =>
    intro t ht
    rcases List.mem_cons.mp ht with h1 | h2
    · subst h1; exact foldl_min_le_init r t
    · exact foldl_min_le_mem r x t h2

theorem listMaxQ_mem (l : List ℚ) (h : l ≠ []) : listMaxQ l ∈ l := by
  cases l with
  | nil => exact absurd rfl h
  | cons x r => exact foldl_max_mem r x

theorem listMaxQ_ge (l : List ℚ) : ∀ t ∈ l, t ≤ listMaxQ l := by
  cases l with
  | nil => intro t ht; cases ht
  | cons x r =>
    intro t ht
    rcases List.mem_cons.mp ht with h1 | h2
    · subst h1; exact foldl_max_ge_init r t
    · exact foldl_max_ge_mem r x t h2

theorem retryLoop_count_pos {E A : Type} (fn : ℕ → Except E A) :
    ∀ (remaining i : ℕ), 1 ≤ (retryLoop fn i remaining).2
  | 0, i => by simp [retryLoop]
  | remaining + 1, i => by
    simp only [retryLoop]
    cases fn i with
    | ok a => simp
    | error e => simp

theorem retryLoop_all_errors {E A : Type} (fn : ℕ → Except E A)
    (h : ∀ i, ∃ e, fn i = Except.error e) :
    ∀ (remaining i : ℕ),
      (retryLoop fn i remaining).2 = remaining + 1 ∧
        ∃ e, (retryLoop fn i remaining).1 = Except.error e
  | 0, i => by
    obtain ⟨e, he⟩ := h i
    exact ⟨rfl, e, by simp [retryLoop, he]⟩
  | remaining + 1, i => by
    obtain ⟨e, he⟩ := h i
    have ih := retryLoop_all_errors fn h remaining (i + 1)
    simp only [retryLoop, he]
    exact ⟨by omega, ih.2⟩

/-- Claim C9: the manual temperature conversions of the HTTP-facing path,
`C(F) = (F − 32) × 5/9` and `F(C) = C × 9/5 + 32`, are mutually inverse
(exactly, over the rationals — hence in particular within floating-point
tolerance). -/
theorem temperature_roundtrip : ∀ f c : ℚ, tempFOfC (tempCOfF f) = f ∧ tempCOfF (tempFOfC c) = c := by
  intro f c
  constructor
  · simp only [tempCOfF, tempFOfC]; ring
  · simp only [tempCOfF, tempFOfC]; ring

theorem promiseAll_all_ok {E A : Type} :
    ∀ l : List (Except E A), (∀ r ∈ l, ∃ a, r = Except.ok a) →
      ∃ ws, promiseAll l = Except.ok ws
  | [], _ => ⟨[], rfl⟩
  | r :: rest, h => by
    obtain ⟨a, ha⟩ := h r (List.mem_cons_self _ _)
    subst ha
    obtain ⟨ws, hws⟩ := promiseAll_all_ok rest (fun x hx => h x (List.mem_cons_of_mem _ hx))
    exact ⟨a :: ws, by simp [promiseAll, hws, Except.map]⟩

theorem promiseAll_error_of_mem {E A : Type} :
    ∀ (l : List (Except E A)) (e : E), Except.error e ∈ l →
      ∃ e2, promiseAll l = Except.error e2
  | r :: rest, e, h => by
    cases r with
    | error e3 => exact ⟨e3, rfl⟩
    | ok a =>
      have hrest : Except.error e ∈ rest := by
        rcases List.mem_cons.mp h with h1 | h2
        · cases h1
        · exact h2
      obtain ⟨e2, he2⟩ := promiseAll_error_of_mem rest e hrest
      exact ⟨e2, by simp [promiseAll, he2, Except.map]⟩

/-- Claim C7 (amended): the failure isolation is a property of the HTTP
`/compare` handler alone.  There, each city's promise has its own
`.catch` returning `null`, so the handler keeps exactly the successful
cities' data and errors only when every city failed.  The CLI comparison
fan-out (`WeatherCLI.fetchWeatherData`), by contrast, runs `Promise.all`
with no per-city catch: it succeeds only when every city succeeds, and a
single city's failure surfaces a constituent error for the whole
comparison. -/
theorem compare_keeps_successes {W : Type}
    (results : List (Option W)) (cliResults : List (Except String W)) :
    ((∃ w : W, some w ∈ results) →
        compareCities results = Except.ok (results.filterMap id) ∧ results.filterMap id ≠ []) ∧
    (∀ w : W, w ∈ results.filterMap id ↔ some w ∈ results) ∧
    ((∀ r ∈ results, r = none) →
        compareCities results = Except.error "Failed to fetch weather data for any city") ∧
    ((∀ r ∈ cliResults, ∃ a, r = Except.ok a) →
        ∃ ws, promiseAll cliResults = Except.ok ws) ∧
    (∀ e, Except.error e ∈ cliResults →
        ∃ e2, promiseAll cliResults = Except.error e2) := by
  refine ⟨?_, ?_, ?_, promiseAll_all_ok cliResults, fun e => promiseAll_error_of_mem cliResults e⟩
  · rintro ⟨w, hw⟩
    have hmem : w ∈ results.filterMap id := by
      rw [List.mem_filterMap]
      exact ⟨some w, hw, rfl⟩
    have hne : results.filterMap id ≠ [] := List.ne_nil_of_mem hmem
    have hlen : ¬ (results.filterMap id).length = 0 := by
      intro hc
      exact hne (List.length_eq_zero.mp hc)
    exact ⟨by simp [compareCities, hlen], hne⟩
  · intro w
    rw [List.mem_filterMap]
    constructor
    · rintro ⟨a, ha, hid⟩
      cases a with
      | none => cases hid
      | some x => cases hid; exact ha
    · intro h
      exact ⟨some w, h, rfl⟩
  · intro h
    have hnil : results.filterMap id = [] := by
      rw [List.filterMap_eq_nil_iff]
      intro a ha
      rw [h a ha]; rfl
    simp [compareCities, hnil]

/-- Claim C7 witness: in the HTTP handler, with two cities of which the
first fails and the second succeeds, the result is exactly the second
city's data; in the CLI fan-out, the same situation surfaces an error. -/
theorem compare_keeps_successes_witness :
    (compareCities [none, some (5 : ℕ)] = Except.ok (([none, some (5 : ℕ)]).filterMap id) ∧
      ([none, some (5 : ℕ)]).filterMap id ≠ []) ∧
    (∃ e2, promiseAll [Except.error "City not found. Please check the city name and try again.",
        (Except.ok (5 : ℕ) : Except String ℕ)] = Except.error e2) :=
  ⟨(compare_keeps_successes [none, some (5 : ℕ)]
      [Except.error "City not found. Please check the city name and try again.", Except.ok 5]).1
    ⟨5, by decide⟩,
   (compare_keeps_successes ([none, some (5 : ℕ)])
      [Except.error "City not found. Please check the city name and try again.", Except.ok 5]).2.2.2.2
    "City not found. Please check the city name and try again." (by simp)⟩

/-- Claim C7 counterexample: on the claim's own cited CLI path
(`WeatherCLI.fetchWeatherData`), a two-city comparison where the first
city's call fails (here with the interceptor-mapped 404 error wrapped by
`getCurrentWeather`) and the second succeeds is a total failure — the
`Promise.all` fan-out has no per-city catch, so the result is the failing
city's error, not a list containing the successful city's data. -/
theorem cli_compare_fails_whole :
    promiseAll [Except.error ("Failed to fetch current weather for London: " ++
        owInterceptError (some 404) false ""),
      (Except.ok (5 : ℕ) : Except String ℕ)] =
      Except.error ("Failed to fetch current weather for London: " ++
        owInterceptError (some 404) false "") ∧
    ∀ ws : List ℕ,
      promiseAll [Except.error ("Failed to fetch current weather for London: " ++
          owInterceptError (some 404) false ""),
        (Except.ok (5 : ℕ) : Except String ℕ)] ≠ Except.ok ws := by
  refine ⟨rfl, ?_⟩
  intro ws h
  cases h

/-- Claim C4 (amended): the `retry` helper does not distinguish error
kinds.  A first-attempt success is returned after one invocation; any
failure — including the interceptor-mapped 401/404 errors and the
"Invalid JSON response" error raised inside the retried thunk — is
retried while budget remains; when every attempt fails, exactly
`maxRetries + 1` invocations happen and the last error surfaces; the wait
doubles with each attempt (`delay * 2 ^ i`); and Zod schema validation
runs outside `retry`, so the number of model invocations never depends on
the validator. -/
theorem retry_uniform_policy :
    (∀ (E A : Type) (fn : ℕ → Except E A) (mr : ℕ) (a : A),
        fn 0 = Except.ok a → retryE fn mr = (Except.ok a, 1)) ∧
    (∀ (E A : Type) (fn : ℕ → Except E A) (mr : ℕ) (e : E),
        fn 0 = Except.error e → 0 < mr → 2 ≤ retryCallCount fn mr) ∧
    (∀ (E A : Type) (fn : ℕ → Except E A) (mr : ℕ),
        (∀ i, ∃ e, fn i = Except.error e) →
          retryCallCount fn mr = mr + 1 ∧ ∃ e, (retryE fn mr).1 = Except.error e) ∧
    (∀ delay i : ℕ, backoffDelay delay (i + 1) = 2 * backoffDelay delay i) ∧
    (∀ (J I : Type) (modelCall : ℕ → Except String J)
        (validateA validateB : J → Except String I) (mr : ℕ),
        (parseIntentRun modelCall validateA mr).2 = (parseIntentRun modelCall validateB mr).2) := by
  refine ⟨?_, ?_, ?_, ?_, ?_⟩
  · intro E A fn mr a h
    cases mr with
    | zero => simp [retryE, retryLoop, h]
    | succ r => simp [retryE, retryLoop, h]
  · intro E A fn mr e h hmr
    cases mr with
    | zero => cases hmr
    | succ r =>
      have hpos := retryLoop_count_pos fn r 1
      simp [retryCallCount, retryE, retryLoop, h]
      omega
  · intro E A fn mr h
    exact retryLoop_all_errors fn h mr 0
  · intro delay i
    simp [backoffDelay, pow_succ]
    ring
  · intro J I modelCall validateA validateB mr
    rfl

/-- Claim C4 witness: a thunk that always fails (with the "Invalid JSON
response from OpenAI" error raised inside the retried body) is invoked
`configRetries + 1 = 4` times and the last error surfaces. -/
theorem retry_uniform_policy_witness :
    retryCallCount (fun _ => (Except.error "Invalid JSON response from OpenAI" : Except String Unit)) configRetries = configRetries + 1 ∧
      ∃ e, (retryE (fun _ => (Except.error "Invalid JSON response from OpenAI" : Except String Unit)) configRetries).1 = Except.error e :=
  retry_uniform_policy.2.2.1 String Unit
    (fun _ => Except.error "Invalid JSON response from OpenAI") configRetries
    (fun _ => ⟨"Invalid JSON response from OpenAI", rfl⟩)

/-- Claim C4 counterexample: provider credential (401) and not-found
(404) errors, as mapped by the response interceptor, and the
malformed-JSON error of the model path are all retried — a permanently
failing call is attempted 4 times (1 + configRetries), not once. -/
theorem retry_auth_errors_retried :
    retryCallCount (fun _ => (Except.error (owInterceptError (some 401) false "Request failed with status code 401") : Except String Unit)) configRetries = 4 ∧
    retryCallCount (fun _ => (Except.error (owInterceptError (some 404) false "Request failed with status code 404") : Except String Unit)) configRetries = 4 ∧
    retryCallCount (fun _ => (Except.error "Invalid JSON response from OpenAI" : Except String Unit)) configRetries = 4 ∧
    (4 : ℕ) ≠ 1 :=
  ⟨rfl, rfl, rfl, by decide⟩

/-- Claim C8 (amended): "tomorrow" computes a day count of 1, dispatches
a 2-day forecast fetch, and keeps exactly the second daily aggregate when
at least two are present; for a range, `weekend` takes precedence (2),
otherwise a populated nonzero `days` is used, otherwise 3. -/
theorem day_count_and_tomorrow_selection :
    (∀ (d : Option ℕ) (w : Option Bool),
        calculateDays { kind := DateKind.tomorrow, days := d, weekend := w } = 1 ∧
          fetchActionFor { kind := DateKind.tomorrow, days := d, weekend := w } =
            FetchAction.tomorrowForecast 2) ∧
    (∀ fd : WeatherDataLite, 2 ≤ fd.forecast.length →
        ∃ t, fd.forecast[1]? = some t ∧
          tomorrowSelect fd = { city := fd.city, country := fd.country, forecast := [t] }) ∧
    (∀ d : Option ℕ,
        calculateDays { kind := DateKind.range, days := d, weekend := some true } = 2) ∧
    (∀ (n : ℕ) (w : Option Bool), w.getD false = false → n ≠ 0 →
        calculateDays { kind := DateKind.range, days := some n, weekend := w } = n) ∧
    (∀ w : Option Bool, w.getD false = false →
        calculateDays { kind := DateKind.range, days := none, weekend := w } = 3) := by
  refine ⟨?_, ?_, ?_, ?_, ?_⟩
  · intro d w
    exact ⟨rfl, rfl⟩
  · intro fd h
    have h1 : 1 < fd.forecast.length := h
    refine ⟨fd.forecast[1], ?_, ?_⟩
    · exact List.getElem?_eq_getElem h1
    · simp [tomorrowSelect, h1, List.getElem?_eq_getElem h1]
  · intro d
    simp [calculateDays]
  · intro n w hw hn
    simp [calculateDays, hw, jsOrNum, hn]
  · intro w hw
    simp [calculateDays, hw, jsOrNum]

/-- Claim C8 witness: with a 2-day forecast the second aggregate (index 1)
is selected, and a populated `days = 5` without the weekend flag yields a
day count of 5. -/
theorem day_count_and_tomorrow_selection_witness :
    2 ≤ sampleTwoDayData.forecast.length ∧
      (∃ t, sampleTwoDayData.forecast[1]? = some t ∧
        tomorrowSelect sampleTwoDayData =
          { city := sampleTwoDayData.city, country := sampleTwoDayData.country, forecast := [t] }) ∧
      calculateDays { kind := DateKind.range, days := some 5, weekend := some false } = 5 :=
  ⟨by decide,
   day_count_and_tomorrow_selection.2.1 sampleTwoDayData (by decide),
   day_count_and_tomorrow_selection.2.2.2.1 5 (some false) rfl (by decide)⟩

/-- Claim C8 counterexample: for `{kind: "range", days: 5, weekend: true}`
the code computes 2 days (weekend takes precedence), not the populated
`days = 5`. -/
theorem weekend_overrides_days :
    calculateDays { kind := DateKind.range, days := some 5, weekend := some true } = 2 ∧
      (2 : ℕ) ≠ 5 :=
  ⟨rfl, by decide⟩

/-- Claim C6 (amended): the at-least-2-cities requirement holds where
comparisons are actually performed — the CLI fans out a comparison only
for `compare` intents with at least 2 cities, and the HTTP compare schema
rejects shorter city arrays — but `parseIntentFallback` itself can emit
`compare = true` with a single placeholder city. -/
theorem compare_needs_two_cities_downstream :
    (∀ (intent : WeatherIntent) (cs : List String),
        fetchWeatherPlan intent = FetchPlan.compareAll cs → 2 ≤ cs.length) ∧
    (∀ cs : List String, compareSchemaOk cs = true → 2 ≤ cs.length) := by
  constructor
  · intro intent cs h
    unfold fetchWeatherPlan at h
    split at h
    · rename_i hcond
      cases h
      exact hcond.2
    · cases hh : intent.cities.head? with
      | none => rw [hh] at h; simp at h
      | some c =>
        rw [hh] at h
        by_cases hc : c = "" <;> simp [hc] at h
  · intro cs h
    unfold compareSchemaOk at h
    have := (Bool.and_eq_true _ _).mp h
    exact of_decide_eq_true this.1

/-- Claim C6 witness: a genuine two-city comparison intent fans out, and
its city list length is at least 2. -/
theorem compare_needs_two_cities_downstream_witness :
    fetchWeatherPlan sampleCompareIntent = FetchPlan.compareAll ["London", "Paris"] ∧
      2 ≤ (["London", "Paris"] : List String).length :=
  ⟨by decide,
   compare_needs_two_cities_downstream.1 sampleCompareIntent ["London", "Paris"] (by decide)⟩

/-- Claim C6 counterexample: the fallback parser maps the bare query
"compare" to an intent with `compare = true` and the single placeholder
city list `["Unknown"]`. -/
theorem fallback_compare_single_city :
    (parseIntentFallback "compare").compare = true ∧
      (parseIntentFallback "compare").cities = ["Unknown"] ∧
      ¬ 2 ≤ (parseIntentFallback "compare").cities.length := by
  refine ⟨by decide, by decide, by decide⟩

theorem jsIncludes_c_of_celsius (s : String) :
    jsIncludes s "celsius" = true → jsIncludes s "c" = true := by
  intro h
  unfold jsIncludes at h ⊢
  rw [List.any_eq_true] at h ⊢
  obtain ⟨i, hi, hpref⟩ := h
  refine ⟨i, hi, ?_⟩
  rw [List.isPrefixOf_iff_prefix] at hpref ⊢
  obtain ⟨t, ht⟩ := hpref
  exact ⟨"elsius".toList ++ t, by rw [← ht]; rfl⟩

theorem aggregateBucket_temperatureMin (k : ℕ) (b : List ForecastEntry) :
    (aggregateBucket k b).temperatureMin = listMinQ (b.map (fun e => e.temp)) := by
  simp only [aggregateBucket]
  split <;> rfl

theorem aggregateBucket_temperatureMax (k : ℕ) (b : List ForecastEntry) :
    (aggregateBucket k b).temperatureMax = listMaxQ (b.map (fun e => e.temp)) := by
  simp only [aggregateBucket]
  split <;> rfl

theorem aggregateBucket_humidity (k : ℕ) (b : List ForecastEntry) :
    (aggregateBucket k b).humidity = jsRound (meanQ (b.map (fun e => e.humidity))) := by
  simp only [aggregateBucket]
  split <;> rfl

theorem aggregateBucket_windSpeed (k : ℕ) (b : List ForecastEntry) :
    (aggregateBucket k b).windSpeed =
      ((jsRound (meanQ (b.map (fun e => e.windSpeed)) * 10) : ℤ) : ℚ) / 10 := by
  simp only [aggregateBucket]
  split <;> rfl

theorem aggregateBucket_pop (k : ℕ) (b : List ForecastEntry) :
    (aggregateBucket k b).precipitationProbability =
      jsRound (listMaxQ (b.map (fun e => e.pop)) * 100) := by
  simp only [aggregateBucket]
  split <;> rfl

theorem aggregateBucket_date (k : ℕ) (b : List ForecastEntry) :
    (aggregateBucket k b).date = k := by
  simp only [aggregateBucket]
  split <;> rfl

/-- Claim C1 (amended): for every non-empty bucket, the daily aggregate
has `temperatureMin`/`temperatureMax` equal to the minimum/maximum sample
temperature, `humidity` equal to the arithmetic mean of the sample
humidities rounded to the nearest integer, `windSpeed` equal to the mean
wind speed rounded to one decimal place, and `precipitationProbability`
equal to the maximum sample probability scaled from 0–1 to 0–100 and
rounded to an integer. -/
theorem daily_aggregate_fields (k : ℕ) (b : List ForecastEntry) (hb : b ≠ []) :
    ((aggregateBucket k b).temperatureMin ∈ b.map (fun e => e.temp) ∧
      ∀ t ∈ b.map (fun e => e.temp), (aggregateBucket k b).temperatureMin ≤ t) ∧
    ((aggregateBucket k b).temperatureMax ∈ b.map (fun e => e.temp) ∧
      ∀ t ∈ b.map (fun e => e.temp), t ≤ (aggregateBucket k b).temperatureMax) ∧
    (aggregateBucket k b).humidity = jsRound (meanQ (b.map (fun e => e.humidity))) ∧
    (aggregateBucket k b).windSpeed =
      ((jsRound (meanQ (b.map (fun e => e.windSpeed)) * 10) : ℤ) : ℚ) / 10 ∧
    (aggregateBucket k b).precipitationProbability =
      jsRound (listMaxQ (b.map (fun e => e.pop)) * 100) ∧
    (listMaxQ (b.map (fun e => e.pop)) ∈ b.map (fun e => e.pop) ∧
      ∀ p ∈ b.map (fun e => e.pop), p ≤ listMaxQ (b.map (fun e => e.pop))) := by
  have htemp : b.map (fun e => e.temp) ≠ [] := by
    simpa using hb
  have hpop : b.map (fun e => e.pop) ≠ [] := by
    simpa using hb
  refine ⟨?_, ?_, ?_, ?_, ?_, ?_⟩
  · rw [aggregateBucket_temperatureMin]
    exact ⟨listMinQ_mem _ htemp, listMinQ_le _⟩
  · rw [aggregateBucket_temperatureMax]
    exact ⟨listMaxQ_mem _ htemp, listMaxQ_ge _⟩
  · exact aggregateBucket_humidity k b
  · exact aggregateBucket_windSpeed k b
  · exact aggregateBucket_pop k b
  · exact ⟨listMaxQ_mem _ hpop, listMaxQ_ge _⟩

/-- Claim C1 witness: the two-sample bucket `[c1entryA, c1entryB]` is
non-empty and satisfies the aggregate field characterization; its rounded
mean humidity evaluates to 51. -/
theorem daily_aggregate_fields_witness :
    ([c1entryA, c1entryB] ≠ ([] : List ForecastEntry)) ∧
      ((aggregateBucket 0 [c1entryA, c1entryB]).humidity =
        jsRound (meanQ ([c1entryA, c1entryB].map (fun e => e.humidity)))) ∧
      jsRound (meanQ ([c1entryA, c1entryB].map (fun e => e.humidity))) = 51 :=
  ⟨by simp,
   (daily_aggregate_fields 0 [c1entryA, c1entryB] (by simp)).2.2.1,
   by norm_num [meanQ, c1entryA, c1entryB, jsRound]⟩

/-- Claim C1 counterexample: for the bucket with humidities 50 and 51 the
code produces the integer 51 (`Math.round` of the mean), while the
arithmetic mean of the sample humidities is 101/2 = 50.5 — the aggregate
humidity is not the arithmetic mean. -/
theorem daily_humidity_is_rounded_not_mean :
    (aggregateBucket 0 [c1entryA, c1entryB]).humidity = 51 ∧
      meanQ ([c1entryA, c1entryB].map (fun e => e.humidity)) = 101 / 2 ∧
      ((51 : ℚ) ≠ 101 / 2) := by
  refine ⟨?_, ?_, by norm_num⟩
  · norm_num [aggregateBucket, c1entryA, c1entryB, tallyWeather, bumpTally, meanQ, jsRound]
  · norm_num [meanQ, c1entryA, c1entryB]

/-- Claim C5: the regex fallback parser is total (it is a total Lean
function) and structurally valid for every input string: `cities` is
never empty, `date.kind` is one of the three enumerated kinds, and
`units` is metric or imperial; in particular the empty query and a query
with both "tomorrow" and "today" produce valid intents. -/
theorem fallback_intent_total_valid :
    (∀ query : String,
        (parseIntentFallback query).cities ≠ [] ∧
        ((parseIntentFallback query).units = UnitSys.metric ∨
          (parseIntentFallback query).units = UnitSys.imperial) ∧
        ((parseIntentFallback query).date.kind = DateKind.today ∨
          (parseIntentFallback query).date.kind = DateKind.tomorrow ∨
          (parseIntentFallback query).date.kind = DateKind.range)) ∧
    (parseIntentFallback "").cities = ["Unknown"] ∧
    (parseIntentFallback "tomorrow today").date.kind = DateKind.tomorrow := by
  refine ⟨?_, by decide, by decide⟩
  intro query
  refine ⟨?_, ?_, ?_⟩
  · unfold parseIntentFallback
    by_cases h : fallbackEarlyReturn query
    · simp [h]
    · simp only [h, if_false]
      split
      · rename_i hlen
        exact List.length_pos.mp hlen
      · simp
  · cases h : (parseIntentFallback query).units
    · exact Or.inl rfl
    · exact Or.inr rfl
  · cases h : (parseIntentFallback query).date.kind
    · exact Or.inl rfl
    · exact Or.inr (Or.inl rfl)
    · exact Or.inr (Or.inr rfl)

/-- Claim C10 (amended): on every query that does not take the early
here/my-location return, the fallback's unit detection collapses to "the
lowercased query contains the letter c" — metric if so, imperial
otherwise, ignoring any configured default; queries that do take the
early return get imperial unconditionally. -/
theorem fallback_units_contains_c (query : String) :
    (¬ fallbackEarlyReturn query →
        (parseIntentFallback query).units =
          (if jsIncludes (jsToLower query) "c" then UnitSys.metric else UnitSys.imperial)) ∧
    (fallbackEarlyReturn query →
        (parseIntentFallback query).units = UnitSys.imperial) := by
  constructor
  · intro h
    simp only [parseIntentFallback, h, if_false]
    show fallbackUnits (jsToLower query) = _
    unfold fallbackUnits
    cases hc : jsIncludes (jsToLower query) "c" with
    | true => simp [hc]
    | false =>
      cases hcel : jsIncludes (jsToLower query) "celsius" with
      | true => rw [jsIncludes_c_of_celsius _ hcel] at hc; cases hc
      | false => simp [hc, hcel]
  · intro h
    simp [parseIntentFallback, h]

/-- Claim C10 witness: "forecast" does not take the early return, and its
units are decided by the contains-c test (metric, since "forecast"
contains a "c"). -/
theorem fallback_units_contains_c_witness :
    ¬ fallbackEarlyReturn "forecast" ∧
      (parseIntentFallback "forecast").units =
        (if jsIncludes (jsToLower "forecast") "c" then UnitSys.metric else UnitSys.imperial) :=
  ⟨by decide, (fallback_units_contains_c "forecast").1 (by decide)⟩

/-- Claim C10 counterexample: the query "my location" contains the letter
c, yet the fallback returns imperial units (the early here/my-location
return bypasses unit detection). -/
theorem fallback_units_early_return_imperial :
    (parseIntentFallback "my location").units = UnitSys.imperial ∧
      jsIncludes (jsToLower "my location") "c" = true ∧
      UnitSys.imperial ≠ UnitSys.metric := by
  refine ⟨by decide, by decide, by decide⟩

theorem insertEntry_keys (m : List (ℕ × List ForecastEntry)) (k : ℕ) (e : ForecastEntry) :
    (insertEntry m k e).map Prod.fst =
      if k ∈ m.map Prod.fst then m.map Prod.fst else m.map Prod.fst ++ [k] := by
  induction m with
  | nil => simp [insertEntry]
  | cons p rest ih =>
    obtain ⟨k', es⟩ := p
    by_cases h : k' = k
    · subst h
      simp [insertEntry]
    · simp only [insertEntry, if_neg h, List.map_cons]
      rw [ih]
      by_cases hk : k ∈ rest.map Prod.fst
      · simp only [if_pos hk]
        rw [if_pos]
        simp [hk]
      · rw [if_neg hk, if_neg]
        · simp
        · simp only [List.mem_cons]
          push_neg
          exact ⟨fun hkk => h hkk.symm, hk⟩

theorem groupKeys_nodup_aux :
    ∀ (entries : List ForecastEntry) (m : List (ℕ × List ForecastEntry)),
      (m.map Prod.fst).Nodup →
        ((entries.foldl (fun m e => insertEntry m (dayKey e.dt) e) m).map Prod.fst).Nodup
  | [], _, h => h
  | e :: es, m, h => by
    simp only [List.foldl_cons]
    refine groupKeys_nodup_aux es _ ?_
    rw [insertEntry_keys]
    split
    · exact h
    · rename_i hk
      rw [List.nodup_append]
      exact ⟨h, List.nodup_singleton _, by simpa using hk⟩

theorem groupByDay_keys_nodup (entries : List ForecastEntry) :
    ((groupByDay entries).map Prod.fst).Nodup :=
  groupKeys_nodup_aux entries [] (by simp)

/-- Claim C3: `getForecast` requests `min(days * 8, 40)` samples;
`transformForecast` groups the samples by UTC calendar day, sorts the day
keys ascending and keeps the first `days` keys, so the result holds at
most `days` daily aggregates in strictly ascending calendar-day order. -/
theorem forecast_day_selection (entries : List ForecastEntry) (days : ℕ) :
    requestCnt days = min (days * 8) 40 ∧
    (transformForecast entries days).map (fun d => d.date) =
      (((groupByDay entries).map Prod.fst).mergeSort (fun a b => Nat.ble a b)).take days ∧
    (transformForecast entries days).length ≤ days ∧
    ((transformForecast entries days).map (fun d => d.date)).Pairwise (· < ·) := by
  have htrans : ∀ a b c : ℕ, Nat.ble a b = true → Nat.ble b c = true → Nat.ble a c = true := by
    intro a b c h1 h2
    rw [Nat.ble_eq] at h1 h2 ⊢
    omega
  have htotal : ∀ a b : ℕ, (Nat.ble a b || Nat.ble b a) = true := by
    intro a b
    rcases Nat.le_total a b with h | h
    · simp [Nat.ble_eq, h]
    · simp [Nat.ble_eq, h]
  have hdates : (transformForecast entries days).map (fun d => d.date) =
      (((groupByDay entries).map Prod.fst).mergeSort (fun a b => Nat.ble a b)).take days := by
    simp only [transformForecast, List.map_map, Function.comp_def]
    have hmapid : ∀ a ∈ (((groupByDay entries).map Prod.fst).mergeSort (fun a b => Nat.ble a b)).take days,
        (aggregateBucket a (lookupDay (groupByDay entries) a)).date = (fun dk : ℕ => dk) a :=
      fun a _ => aggregateBucket_date a (lookupDay (groupByDay entries) a)
    rw [List.map_congr_left hmapid]
    simp
  have hsorted := List.sorted_mergeSort htrans htotal ((groupByDay entries).map Prod.fst)
  have hle : (((groupByDay entries).map Prod.fst).mergeSort (fun a b => Nat.ble a b)).Pairwise (· ≤ ·) :=
    hsorted.imp (fun h => Nat.le_of_ble_eq_true h)
  have hnodup : (((groupByDay entries).map Prod.fst).mergeSort (fun a b => Nat.ble a b)).Nodup :=
    (List.mergeSort_perm _ _).symm.nodup (groupByDay_keys_nodup entries)
  have hlt : (((groupByDay entries).map Prod.fst).mergeSort (fun a b => Nat.ble a b)).Pairwise (· < ·) :=
    (hle.and hnodup).imp (fun h => lt_of_le_of_ne h.1 h.2)
  refine ⟨rfl, hdates, ?_, ?_⟩
  · simp only [transformForecast, List.length_map, List.length_take]
    exact min_le_left _ _
  · rw [hdates]
    exact List.Pairwise.sublist (List.take_sublist _ _) hlt

theorem head_stableInsertDesc (x : String × ℕ) (s : List (String × ℕ)) :
    (stableInsertDesc x s).head? = firstMaxStep s.head? x := by
  cases s with
  | nil => rfl
  | cons y ys =>
    simp only [stableInsertDesc, firstMaxStep, List.head?_cons]
    split
    · rfl
    · rfl

theorem sortByCountDesc_concat (l : List (String × ℕ)) (x : String × ℕ) :
    sortByCountDesc (l ++ [x]) = stableInsertDesc x (sortByCountDesc l) := by
  simp [sortByCountDesc, List.foldl_append]

theorem firstMax_concat (l : List (String × ℕ)) (x : String × ℕ) :
    firstMax (l ++ [x]) = firstMaxStep (firstMax l) x := by
  simp [firstMax, List.foldl_append]

theorem head_sortByCountDesc (l : List (String × ℕ)) :
    (sortByCountDesc l).head? = firstMax l := by
  induction l using List.reverseRecOn with
  | nil => rfl
  | append_singleton l x ih =>
    rw [sortByCountDesc_concat, firstMax_concat, head_stableInsertDesc, ih]

theorem firstMaxStep_isSome (a x : String × ℕ) : ∃ y, firstMaxStep (some a) x = some y := by
  unfold firstMaxStep
  by_cases h : a.2 < x.2
  · exact ⟨x, if_pos h⟩
  · exact ⟨a, if_neg h⟩

theorem foldl_firstMaxStep_some :
    ∀ (l : List (String × ℕ)) (a : String × ℕ),
      ∃ m, l.foldl firstMaxStep (some a) = some m
  | [], a => ⟨a, rfl⟩
  | x :: l, a => by
    simp only [List.foldl_cons]
    obtain ⟨y, hy⟩ := firstMaxStep_isSome a x
    rw [hy]
    exact foldl_firstMaxStep_some l y

theorem foldl_firstMaxStep_mem :
    ∀ (l : List (String × ℕ)) (acc : Option (String × ℕ)) (m : String × ℕ),
      l.foldl firstMaxStep acc = some m → acc = some m ∨ m ∈ l
  | [], _, m, h => Or.inl h
  | x :: l, acc, m, h => by
    simp only [List.foldl_cons] at h
    rcases foldl_firstMaxStep_mem l _ m h with h1 | h2
    · cases acc with
      | none =>
        simp only [firstMaxStep] at h1
        cases h1
        exact Or.inr (List.mem_cons_self _ _)
      | some a =>
        simp only [firstMaxStep] at h1
        split at h1
        · cases h1
          exact Or.inr (List.mem_cons_self _ _)
        · exact Or.inl h1
    · exact Or.inr (List.mem_cons_of_mem _ h2)

theorem firstMax_mem (l : List (String × ℕ)) (m : String × ℕ) :
    firstMax l = some m → m ∈ l := by
  intro h
  rcases foldl_firstMaxStep_mem l none m h with h1 | h2
  · cases h1
  · exact h2

theorem firstMax_of_ne_nil (l : List (String × ℕ)) (h : l ≠ []) :
    ∃ p, firstMax l = some p := by
  cases l with
  | nil => exact absurd rfl h
  | cons x rest =>
    obtain ⟨m, hm⟩ := foldl_firstMaxStep_some rest x
    exact ⟨m, by simpa [firstMax, firstMaxStep] using hm⟩

theorem bumpTally_keys (t : List (String × ℕ)) (key : String) :
    (bumpTally t key).map Prod.fst =
      if key ∈ t.map Prod.fst then t.map Prod.fst else t.map Prod.fst ++ [key] := by
  induction t with
  | nil => simp [bumpTally]
  | cons p rest ih =>
    obtain ⟨k, n⟩ := p
    by_cases h : k = key
    · subst h
      simp [bumpTally]
    · simp only [bumpTally, if_neg h, List.map_cons]
      rw [ih]
      by_cases hk : key ∈ rest.map Prod.fst
      · rw [if_pos hk, if_pos]
        simp [hk]
      · rw [if_neg hk, if_neg]
        · simp
        · simp only [List.mem_cons]
          push_neg
          exact ⟨fun hkk => h hkk.symm, hk⟩

theorem tally_foldl_mem_shape :
    ∀ (es : List ForecastEntry) (acc : List (String × ℕ)) (kv : String × ℕ),
      kv ∈ es.foldl (fun acc e =>
        match e.weather.head? with
        | some w => bumpTally acc (w.main ++ "-" ++ w.description)
        | none => acc) acc →
      kv.1 ∈ acc.map Prod.fst ∨
        ∃ e ∈ es, ∃ w, e.weather.head? = some w ∧ kv.1 = w.main ++ "-" ++ w.description
  | [], acc, kv, h => Or.inl (List.mem_map_of_mem Prod.fst h)
  | e :: es, acc, kv, h => by
    simp only [List.foldl_cons] at h
    rcases tally_foldl_mem_shape es _ kv h with h1 | h2
    · cases he : e.weather.head? with
      | none =>
        rw [he] at h1
        exact Or.inl h1
      | some w =>
        rw [he] at h1
        rw [bumpTally_keys] at h1
        split at h1
        · exact Or.inl h1
        · rcases List.mem_append.mp h1 with ha | hb
          · exact Or.inl ha
          · refine Or.inr ⟨e, List.mem_cons_self _ _, w, he, ?_⟩
            simpa using hb
    · obtain ⟨e', he', w, hw, hkey⟩ := h2
      exact Or.inr ⟨e', List.mem_cons_of_mem _ he', w, hw, hkey⟩

theorem tallyWeather_mem_shape (b : List ForecastEntry) (kv : String × ℕ)
    (h : kv ∈ tallyWeather b) :
    ∃ e ∈ b, ∃ w, e.weather.head? = some w ∧ kv.1 = w.main ++ "-" ++ w.description := by
  rcases tally_foldl_mem_shape b [] kv h with h1 | h2
  · cases h1
  · exact h2

theorem splitDash_no_dash : ∀ (l : List Char), ¬ '-' ∈ l → splitDash l = [l]
  | [], _ => rfl
  | c :: rest, h => by
    have hc : ¬ c = '-' := fun hc => h (hc ▸ List.mem_cons_self _ _)
    have hrest : ¬ '-' ∈ rest := fun hr => h (List.mem_cons_of_mem _ hr)
    simp only [splitDash, if_neg hc, splitDash_no_dash rest hrest]

theorem splitDash_append : ∀ (m d : List Char), ¬ '-' ∈ m →
    splitDash (m ++ '-' :: d) = m :: splitDash d
  | [], d, _ => by simp [splitDash]
  | c :: m, d, h => by
    have hc : ¬ c = '-' := fun hc => h (hc ▸ List.mem_cons_self _ _)
    have hm : ¬ '-' ∈ m := fun hr => h (List.mem_cons_of_mem _ hr)
    show splitDash (c :: (m ++ '-' :: d)) = (c :: m) :: splitDash d
    simp only [splitDash, if_neg hc]
    rw [splitDash_append m d hm]

theorem string_toList_join (ms ds : String) :
    (ms ++ "-" ++ ds).toList = ms.toList ++ '-' :: ds.toList := by
  show (ms ++ "-" ++ ds).data = ms.data ++ '-' :: ds.data
  rw [String.data_append, String.data_append, List.append_assoc]
  rfl

theorem splitDashS_join (ms ds : String)
    (hm : ¬ '-' ∈ ms.toList) (hd : ¬ '-' ∈ ds.toList) :
    splitDashS (ms ++ "-" ++ ds) = [ms, ds] := by
  unfold splitDashS
  rw [string_toList_join, splitDash_append _ _ hm, splitDash_no_dash _ hd]
  rfl

theorem join_ne_empty (ms ds : String) : ms ++ "-" ++ ds ≠ "" := by
  intro h
  have := congrArg String.toList h
  rw [string_toList_join] at this
  simp at this

/-- Claim C2 (amended): when every condition's `main` and `description`
are hyphen-free and non-empty, the aggregated day's condition is the
`(main, description)` pair whose hyphen-joined key has the highest tally,
ties broken in favor of the first-encountered pair in iteration order
(`firstMax` over the insertion-ordered tally); a bucket without condition
entries gets the fixed fallback "Unknown"/"Clear".  (The hyphen-joined
encoding makes the restriction necessary: a hyphen inside a description
is re-split at the first hyphen.) -/
theorem condition_selection (k : ℕ) (b : List ForecastEntry)
    (hclean : ∀ e ∈ b, ∀ w ∈ e.weather,
      ¬ '-' ∈ w.main.toList ∧ ¬ '-' ∈ w.description.toList ∧ w.main ≠ "" ∧ w.description ≠ "") :
    (tallyWeather b = [] →
        (aggregateBucket k b).main = "Clear" ∧ (aggregateBucket k b).description = "Unknown") ∧
    (tallyWeather b ≠ [] →
        ∃ mkey c, firstMax (tallyWeather b) = some (mkey, c) ∧
          ∃ e ∈ b, ∃ w, e.weather.head? = some w ∧
            mkey = w.main ++ "-" ++ w.description ∧
            (aggregateBucket k b).main = w.main ∧
            (aggregateBucket k b).description = w.description) := by
  constructor
  · intro h
    constructor
    · simp [aggregateBucket, h]
    · simp [aggregateBucket, h]
  · intro hne
    obtain ⟨p, hp⟩ := firstMax_of_ne_nil _ hne
    obtain ⟨mkey, c⟩ := p
    have hmem : (mkey, c) ∈ tallyWeather b := firstMax_mem _ _ hp
    obtain ⟨e, he, w, hw, hkey⟩ := tallyWeather_mem_shape b (mkey, c) hmem
    dsimp only at hkey
    have hwmem : w ∈ e.weather := by
      cases hwe : e.weather with
      | nil => rw [hwe] at hw; cases hw
      | cons a l =>
        rw [hwe] at hw
        cases hw
        exact List.mem_cons_self _ _
    obtain ⟨hmdash, hddash, hmne, hdne⟩ := hclean e he w hwmem
    have hsplit : splitDashS mkey = [w.main, w.description] := by
      rw [hkey]
      exact splitDashS_join _ _ hmdash hddash
    have hkeyne : mkey ≠ "" := by
      rw [hkey]
      exact join_ne_empty _ _
    have hhead : (sortByCountDesc (tallyWeather b)).head? = some (mkey, c) := by
      rw [head_sortByCountDesc]
      exact hp
    refine ⟨mkey, c, hp, e, he, w, hw, hkey, ?_, ?_⟩
    · simp [aggregateBucket, hne, hhead, jsOrS, hkeyne, hsplit, hmne]
    · simp [aggregateBucket, hne, hhead, jsOrS, hkeyne, hsplit, hdne]

/-- Claim C2 witness: the spec's example bucket
`[{temp:10, Rain}, {temp:20, Rain}, {temp:15, Clear}]` has a non-empty
hyphen-free tally; the selected condition is "Rain" (2 votes beat 1),
`temperatureMin` is 10 and `temperatureMax` is 20. -/
theorem condition_selection_witness :
    (tallyWeather [c2entryRainA, c2entryRainB, c2entryClear] ≠ []) ∧
      (∃ mkey c, firstMax (tallyWeather [c2entryRainA, c2entryRainB, c2entryClear]) = some (mkey, c) ∧
        ∃ e ∈ [c2entryRainA, c2entryRainB, c2entryClear], ∃ w, e.weather.head? = some w ∧
          mkey = w.main ++ "-" ++ w.description ∧
          (aggregateBucket 0 [c2entryRainA, c2entryRainB, c2entryClear]).main = w.main ∧
          (aggregateBucket 0 [c2entryRainA, c2entryRainB, c2entryClear]).description = w.description) ∧
      (aggregateBucket 0 [c2entryRainA, c2entryRainB, c2entryClear]).main = "Rain" ∧
      (aggregateBucket 0 [c2entryRainA, c2entryRainB, c2entryClear]).temperatureMin = 10 ∧
      (aggregateBucket 0 [c2entryRainA, c2entryRainB, c2entryClear]).temperatureMax = 20 :=
  ⟨by decide,
   (condition_selection 0 [c2entryRainA, c2entryRainB, c2entryClear] (by decide)).2 (by decide),
   by decide, by decide, by decide⟩

/-- Claim C2 counterexample: a bucket whose single sample has the
condition pair ("Rain", "very-heavy") — the unique, hence highest-tally,
pair — yields the aggregated condition ("Rain", "very"): the hyphen-joined
key is re-split at the first hyphen, so the aggregated condition is not
the highest-tally `(main, description)` pair. -/
theorem condition_hyphen_mangled :
    tallyWeather [c2entryHyphen] = [("Rain-very-heavy", 1)] ∧
      [c2entryHyphen].map (fun e => e.weather) = [[{ main := "Rain", description := "very-heavy", icon := "10d" }]] ∧
      (aggregateBucket 0 [c2entryHyphen]).main = "Rain" ∧
      (aggregateBucket 0 [c2entryHyphen]).description = "very" ∧
      "very" ≠ "very-heavy" := by
  refine ⟨by decide, by decide, by decide, by decide, by decide⟩
